import Mathlib

/-!
Shallow embedding of the reactor control core of a proof-of-stake node:
the block-gossip acceptor (`src/node/src/components/blocks_accumulator/block_acceptor.rs`)
and the reactor control loop's catch-up / keep-up crank logic
(`src/node/src/reactor/main_reactor/control.rs`), together with theorems
settling the specified properties.

Opaque identifiers (block hashes, public keys, era ids, timestamps) are
modelled as natural numbers; cryptographic checks that are delegated to
code outside this repository are modelled as boolean fields recording
their outcome.
-/

namespace Casper

/-- A finality signature `{ block_hash, era_id, public_key, signature_bytes }`.
The `verified` field records the outcome of the delegated cryptographic check
`is_verified()` (the signature bytes themselves are opaque). -/
structure FinalitySignature where
  block_hash : Nat
  era_id : Nat
  public_key : Nat
  verified : Bool
  deriving DecidableEq, Repr

/-- Modelled from the spec: `is_verified()` of a finality signature is a
delegated cryptographic check; its outcome is carried by the `verified` field. -/
def FinalitySignature.is_verified (fs : FinalitySignature) : Bool :=
  fs.verified

/-- A block, exposing `hash()`, `header().era_id()`, `header().height()` and
`header().next_block_era_id()`. -/
structure Block where
  hash : Nat
  era_id : Nat
  height : Nat
  next_block_era_id : Nat
  deriving DecidableEq, Repr

/-- A gossiped block body with its proofs.  The `valid` field records the
outcome of the delegated self-consistency check `validate()`. -/
structure BlockAdded where
  block : Block
  valid : Bool
  deriving DecidableEq, Repr

/-- Modelled from the spec: `validate()` of a block-added is a delegated
self-consistency check (hash matches header, header well-formed); its outcome
is carried by the `valid` field. -/
def BlockAdded.validate (ba : BlockAdded) : Bool :=
  ba.valid

/-- Classification of accumulated signature weight for an era. -/
inductive SignatureWeight where
  | Insufficient
  | Weak
  | Sufficient
  deriving DecidableEq, Repr

/-- Validator weights for a specific era: a mapping from validator public key
to weight. -/
structure EraValidatorWeights where
  era_id : Nat
  validator_weights : List (Nat × Nat)
  deriving DecidableEq, Repr

/-- Weight a given era assigns to a public key (zero for unknown signers). -/
def EraValidatorWeights.weight (w : EraValidatorWeights) (k : Nat) : Nat :=
  match w.validator_weights.lookup k with
  | some v => v
  | none => 0

/-- Total weight of the era's validator set. -/
def EraValidatorWeights.total_weight (w : EraValidatorWeights) : Nat :=
  (w.validator_weights.map Prod.snd).sum

/-- Modelled from the spec: `has_sufficient_weight(keys)` sums the weights of
the supplied keys (ignoring unknowns) and returns `Sufficient` when the sum is
at least `⌈2·total/3⌉ + 1`, `Weak` when at least `⌈total/3⌉ + 1`, else
`Insufficient`.  (The classifier itself lives outside the given sources.) -/
def EraValidatorWeights.has_sufficient_weight (w : EraValidatorWeights)
    (keys : List Nat) : SignatureWeight :=
  let s := (keys.map w.weight).sum
  if (2 * w.total_weight + 2) / 3 + 1 ≤ s then SignatureWeight.Sufficient
  else if (w.total_weight + 2) / 3 + 1 ≤ s then SignatureWeight.Weak
  else SignatureWeight.Insufficient

/-- Modelled from the spec: `Latch<bool>` is a monotone boolean that once set
to true never resets.  (The latch type lives outside the given sources; the
acceptor's field comment documents the same contract.) -/
structure Latch where
  value : Bool
  deriving DecidableEq, Repr

/-- `set` drives the latch to a value and reports whether a transition
happened. -/
def Latch.set (l : Latch) (v : Bool) : Bool × Latch :=
  if l.value ≠ v then (true, ⟨v⟩) else (false, l)

/-- Errors surfaced by the block acceptor. -/
inductive Error where
  | InvalidBlockAdded
  | InvalidFinalitySignature
  | WrongEraWeights (block_era : Nat) (validator_weights_era : Nat)
  | FinalitySignatureWithWrongEra (finality_signature : FinalitySignature)
      (correct_era : Nat)
  deriving DecidableEq, Repr

/-- The per-block-hash acceptor state.  `signatures` models the
`BTreeMap<PublicKey, FinalitySignature>`; insertion keeps keys distinct. -/
structure BlockGossipAcceptor where
  block_hash : Nat
  era_id : Nat
  block_added : Option BlockAdded
  signatures : List (Nat × FinalitySignature)
  can_execute_latch : Latch
  deriving DecidableEq, Repr

namespace BlockGossipAcceptor

/-- Map insertion `signatures.insert(pk, fs)`: any previous entry under the
same key is replaced. -/
def insertSig (m : List (Nat × FinalitySignature)) (k : Nat)
    (fs : FinalitySignature) : List (Nat × FinalitySignature) :=
  (k, fs) :: m.filter (fun p => p.1 ≠ k)

/-- `new_from_block_added`: validate the block, then seed the acceptor with an
empty signature set and an unset latch. -/
def new_from_block_added (block_added : BlockAdded) :
    Except Error BlockGossipAcceptor :=
  if block_added.validate = false then
    Except.error Error.InvalidBlockAdded
  else
    Except.ok
      { block_hash := block_added.block.hash
        era_id := block_added.block.era_id
        block_added := some block_added
        signatures := []
        can_execute_latch := ⟨false⟩ }

/-- `new_from_finality_signature`: require the signature verified, check any
supplied weights are for the signature's era, then seed the acceptor with the
single signature and no block. -/
def new_from_finality_signature (finality_signature : FinalitySignature)
    (era_validator_weights : Option EraValidatorWeights) :
    Except Error BlockGossipAcceptor :=
  if finality_signature.is_verified = false then
    Except.error Error.InvalidFinalitySignature
  else
    match era_validator_weights with
    | some weights =>
        if weights.era_id ≠ finality_signature.era_id then
          Except.error
            (Error.WrongEraWeights finality_signature.era_id weights.era_id)
        else
          Except.ok
            { block_hash := finality_signature.block_hash
              era_id := finality_signature.era_id
              block_added := none
              signatures := [(finality_signature.public_key, finality_signature)]
              can_execute_latch := ⟨false⟩ }
    | none =>
        Except.ok
          { block_hash := finality_signature.block_hash
            era_id := finality_signature.era_id
            block_added := none
            signatures := [(finality_signature.public_key, finality_signature)]
            can_execute_latch := ⟨false⟩ }

/-- `can_execute(weights?)`: returns true if the latch is set; otherwise false
when the block is missing or weights are absent or insufficient; on sufficient
weight sets the latch.  Returns the boolean together with the (possibly
latched) acceptor, mirroring `&mut self`. -/
def can_execute (a : BlockGossipAcceptor)
    (era_validator_weights : Option EraValidatorWeights) :
    Bool × BlockGossipAcceptor :=
  if a.can_execute_latch.value then (true, a)
  else if a.block_added.isNone then (false, a)
  else
    match era_validator_weights with
    | none => (false, a)
    | some weights =>
        if weights.has_sufficient_weight (a.signatures.map Prod.fst) =
            SignatureWeight.Sufficient then
          let a' := { a with can_execute_latch := ⟨true⟩ }
          (a'.can_execute_latch.value, a')
        else (a.can_execute_latch.value, a)

/-- `register_signature(sig, weights?)`: reject a signature whose era differs
from a present block's era; otherwise insert it and report the edge
transition `can_execute_now && !could_execute`.  The Rust code does not call
`is_verified` here (only a `TODO: verify sig` comment). -/
def register_signature (a : BlockGossipAcceptor)
    (finality_signature : FinalitySignature)
    (era_validator_weights : Option EraValidatorWeights) :
    Except Error Bool × BlockGossipAcceptor :=
  let eraCheck : Option Error :=
    match a.block_added with
    | some block_added =>
        if block_added.block.era_id ≠ finality_signature.era_id then
          some (Error.FinalitySignatureWithWrongEra finality_signature
            block_added.block.era_id)
        else none
    | none => none
  match eraCheck with
  | some e => (Except.error e, a)
  | none =>
      let p1 : Bool × BlockGossipAcceptor := can_execute a era_validator_weights
      let could_execute := p1.1
      let a1 := p1.2
      let a2 := { a1 with
        signatures := insertSig a1.signatures finality_signature.public_key
          finality_signature }
      let p2 : Bool × BlockGossipAcceptor := can_execute a2 era_validator_weights
      (Except.ok (p2.1 && !could_execute), p2.2)

/-- `register_block(block_added, weights?)`: duplicate blocks return
`Ok(false)`; invalid blocks are rejected; otherwise signatures of other eras
are purged, the block is stored, and the edge transition is reported. -/
def register_block (a : BlockGossipAcceptor) (block_added : BlockAdded)
    (era_validator_weights : Option EraValidatorWeights) :
    Except Error Bool × BlockGossipAcceptor :=
  if a.block_added.isSome then (Except.ok false, a)
  else if block_added.validate = false then
    (Except.error Error.InvalidBlockAdded, a)
  else
    let a1 := { a with
      signatures := a.signatures.filter
        (fun p => p.2.era_id = block_added.block.era_id) }
    let p1 : Bool × BlockGossipAcceptor := can_execute a1 era_validator_weights
    let could_execute := p1.1
    let a2 := { p1.2 with block_added := some block_added }
    let p2 : Bool × BlockGossipAcceptor := can_execute a2 era_validator_weights
    (Except.ok (p2.1 && !could_execute), p2.2)

/-- `has_block_added`. -/
def has_block_added (a : BlockGossipAcceptor) : Bool :=
  a.block_added.isSome

end BlockGossipAcceptor

/-- One operation on an acceptor: a `register_signature` call, a
`register_block` call, or a bare `can_execute` query (which may latch). -/
inductive Op where
  | regSig (fs : FinalitySignature) (w : Option EraValidatorWeights)
  | regBlock (ba : BlockAdded) (w : Option EraValidatorWeights)
  | canExec (w : Option EraValidatorWeights)
  deriving DecidableEq, Repr

/-- Run one operation, returning the `Result` it produced (`none` for a bare
`can_execute` query) and the updated acceptor. -/
def opRun (a : BlockGossipAcceptor) (op : Op) :
    Option (Except Error Bool) × BlockGossipAcceptor :=
  match op with
  | Op.regSig fs w =>
      let p := a.register_signature fs w
      (some p.1, p.2)
  | Op.regBlock ba w =>
      let p := a.register_block ba w
      (some p.1, p.2)
  | Op.canExec w =>
      (none, (a.can_execute w).2)

/-- State after one operation. -/
def step (a : BlockGossipAcceptor) (op : Op) : BlockGossipAcceptor :=
  (opRun a op).2

/-- State after a sequence of operations. -/
def runOps (a : BlockGossipAcceptor) (ops : List Op) : BlockGossipAcceptor :=
  ops.foldl step a

/-- The trace of `Result` values produced by a sequence of operations. -/
def results (a : BlockGossipAcceptor) : List Op → List (Option (Except Error Bool))
  | [] => []
  | op :: rest => (opRun a op).1 :: results (step a op) rest

/-- Whether a trace entry is a call that returned `Ok(true)`. -/
def isOkTrue : Option (Except Error Bool) → Bool
  | some (Except.ok true) => true
  | _ => false

/-- Number of calls in a trace that returned `Ok(true)`. -/
def okTrueCount (l : List (Option (Except Error Bool))) : Nat :=
  l.countP isOkTrue

/-- Invariant of acceptors created from a valid block-added: the original
block stays in place, `era_id` is its era, `block_hash` is its hash, and
every stored signature carries the acceptor's era. -/
def FromBlockInv (a : BlockGossipAcceptor) : Prop :=
  ∃ ba, a.block_added = some ba ∧ a.era_id = ba.block.era_id ∧
    a.block_hash = ba.block.hash ∧
    ∀ p ∈ a.signatures, (p : Nat × FinalitySignature).2.era_id = a.era_id

/-- The reactor's operational phases. -/
inductive ReactorState where
  | Initialize
  | CatchUp
  | KeepUp
  | Validate
  deriving DecidableEq, Repr

/-- The chainspec activation point: a genesis timestamp or an upgrade era. -/
inductive ActivationPoint where
  | Genesis (timestamp : Nat)
  | UpgradeEra (era_id : Nat)
  deriving DecidableEq, Repr

/-- Modelled from the spec: the starting point handed to the accumulator's
sync-instruction evaluator, either a block value or a block hash.  (The
`StartingWith` type lives in the accumulator module outside the given
sources.) -/
inductive StartingWith where
  | Block (block : Block)
  | Hash (hash : Nat)
  deriving DecidableEq, Repr

/-- Modelled from the spec: `starting_with.block_hash()` is the block's hash
or the carried hash. -/
def StartingWith.block_hash : StartingWith → Nat
  | StartingWith.Block b => b.hash
  | StartingWith.Hash h => h

/-- The sync instruction the accumulator emits for a starting point. -/
inductive SyncInstruction where
  | Leap
  | BlockSync (block_hash : Nat) (should_fetch_execution_state : Bool)
  | BlockExec (block : Block)
  | CaughtUp
  deriving DecidableEq, Repr

/-- Result of `Storage::read_block` for a hash: a block, a miss, or a fatal
storage error. -/
inductive ReadBlockResult where
  | found (block : Block)
  | missing
  | failure
  deriving DecidableEq, Repr

/-- The instruction produced by one catch-up evaluation. -/
inductive CatchUpInstruction where
  | Do (attempt_leap_trusted_hash : Nat)
  | CheckSoon (reason : String)
  | CheckLater (reason : String) (wait_sec : Nat)
  | Shutdown (reason : String)
  | CaughtUp
  | CommitGenesis
  | CommitUpgrade (header : Block)
  deriving DecidableEq, Repr

/-- Base crank cadence in seconds. -/
def WAIT_SEC : Nat := 5

/-- The reactor state read by `catch_up_instructions`: its own counters plus
the answers its collaborators (block synchronizer, storage, accumulator)
would give during this crank. -/
structure CatchUpState where
  last_progress : Option Nat
  now : Nat
  idle_tolerances : Nat
  attempts : Nat
  max_attempts : Nat
  trusted_hash : Option Nat
  highest_block : Option Block
  read_block : Nat → ReadBlockResult
  activation_point : ActivationPoint
  sync_instruction : StartingWith → SyncInstruction

/-- Outcome of one catch-up evaluation: the instruction, the updated
`attempts` counter, and the `register_block_by_hash` calls made (hash and
`fetch_execution_state` flag). -/
structure CatchUpOutcome where
  instruction : CatchUpInstruction
  attempts : Nat
  registrations : List (Nat × Bool)
  deriving DecidableEq, Repr

/-- Starting-point determination of `catch_up_instructions`: errors are the
early-returned instructions. -/
def starting_with (st : CatchUpState) : Except CatchUpInstruction StartingWith :=
  match st.trusted_hash with
  | none =>
      match st.highest_block with
      | some block => Except.ok (StartingWith.Block block)
      | none =>
          match st.activation_point with
          | ActivationPoint.Genesis timestamp =>
              if st.now ≤ timestamp then
                Except.error CatchUpInstruction.CommitGenesis
              else
                Except.error (CatchUpInstruction.Shutdown
                  "post-genesis; cannot proceed without trusted hash provided")
          | ActivationPoint.UpgradeEra _ =>
              Except.error (CatchUpInstruction.Shutdown
                "post-genesis; cannot proceed without trusted hash provided")
  | some trusted_hash =>
      match st.read_block trusted_hash with
      | ReadBlockResult.found trusted_block =>
          match st.highest_block with
          | some block =>
              if trusted_block.height > block.height then
                Except.ok (StartingWith.Hash trusted_hash)
              else Except.ok (StartingWith.Block block)
          | none => Except.ok (StartingWith.Hash trusted_hash)
      | ReadBlockResult.missing => Except.ok (StartingWith.Hash trusted_hash)
      | ReadBlockResult.failure =>
          Except.error (CatchUpInstruction.Shutdown
            "fatal block store error when attempting to read block under trusted hash")

/-- The tail of `catch_up_instructions` after the idleness guard: determine
the starting point, ask the accumulator, and dispatch on its sync
instruction.  `attempts` is the (possibly incremented) counter threaded
through. -/
def catch_up_dispatch (st : CatchUpState) (attempts : Nat) : CatchUpOutcome :=
  match starting_with st with
  | Except.error instruction => ⟨instruction, attempts, []⟩
  | Except.ok sw =>
      match st.sync_instruction sw with
      | SyncInstruction.Leap =>
          ⟨CatchUpInstruction.Do sw.block_hash, attempts, []⟩
      | SyncInstruction.BlockSync block_hash should_fetch_execution_state =>
          ⟨CatchUpInstruction.CheckSoon "block_synchronizer is initialized",
            attempts, [(block_hash, should_fetch_execution_state)]⟩
      | SyncInstruction.BlockExec block =>
          ⟨CatchUpInstruction.CheckSoon
            "block_synchronizer is initialized for potentially executable block",
            attempts, [(block.hash, false)]⟩
      | SyncInstruction.CaughtUp =>
          match st.highest_block with
          | some block =>
              if block.era_id = block.next_block_era_id then
                ⟨CatchUpInstruction.CommitUpgrade block, attempts, []⟩
              else ⟨CatchUpInstruction.CaughtUp, attempts, []⟩
          | none =>
              ⟨CatchUpInstruction.Shutdown
                "can't be caught up with no block in the block store",
                attempts, []⟩

/-- `catch_up_instructions`: the idleness guard (progress within tolerance
resets `attempts` and waits; staleness increments `attempts` and shuts down
past `max_attempts`), then the dispatch on the accumulator's instruction. -/
def catch_up_instructions (st : CatchUpState) : CatchUpOutcome :=
  match st.last_progress with
  | some timestamp =>
      if st.now - timestamp ≤ st.idle_tolerances then
        ⟨CatchUpInstruction.CheckLater "block_synchronizer is making progress"
          (WAIT_SEC * 2), 0, []⟩
      else
        if st.attempts + 1 > st.max_attempts then
          ⟨CatchUpInstruction.Shutdown
            "catch up process exceeds idle tolerances", st.attempts + 1, []⟩
        else catch_up_dispatch st (st.attempts + 1)
  | none => catch_up_dispatch st st.attempts

/-- Consecutive catch-up cranks, carrying the `attempts` counter from one
crank to the next; yields the instruction of each crank. -/
def runCranks : CatchUpState → Nat → List CatchUpInstruction
  | _, 0 => []
  | st, n + 1 =>
      (catch_up_instructions st).instruction ::
        runCranks { st with attempts := (catch_up_instructions st).attempts } n

/-- How a `KeepUp` crank ends: scheduling the next crank, or panicking (the
`todo!()` in the `BlockSync` arm). -/
inductive CrankFinish where
  | scheduleCrank
  | panic (msg : String)
  deriving DecidableEq, Repr

/-- The reactor state read by the `KeepUp` arm of `crank`. -/
structure KeepUpState where
  sync_instruction : StartingWith → SyncInstruction
  is_active_validator : Bool
  sync_leap_simultaneous_peer_requests : Nat

/-- Outcome of a `KeepUp` crank: the next reactor state, the
`register_block_by_hash` calls (hash, `fetch_execution_state`, fan-out), and
how the crank ends. -/
structure KeepUpOutcome where
  state : ReactorState
  registrations : List (Nat × Bool × Nat)
  finish : CrankFinish
  deriving DecidableEq, Repr

/-- The `KeepUp` arm of `MainReactor::crank`: it queries the accumulator with
the placeholder `BlockHash::default()` (zero) and dispatches; the `BlockSync`
arm registers the block and then hits `todo!()`. -/
def crank_keep_up (st : KeepUpState) : KeepUpOutcome :=
  let current_block_hash : Nat := 0
  match st.sync_instruction (StartingWith.Hash current_block_hash) with
  | SyncInstruction.Leap =>
      ⟨ReactorState.CatchUp, [], CrankFinish.scheduleCrank⟩
  | SyncInstruction.BlockSync block_hash should_fetch_execution_state =>
      ⟨ReactorState.KeepUp,
        [(block_hash, should_fetch_execution_state,
          st.sync_leap_simultaneous_peer_requests)],
        CrankFinish.panic "not yet implemented"⟩
  | SyncInstruction.BlockExec block =>
      ⟨ReactorState.KeepUp,
        [(block.hash, false, st.sync_leap_simultaneous_peer_requests)],
        CrankFinish.scheduleCrank⟩
  | SyncInstruction.CaughtUp =>
      ⟨if st.is_active_validator then ReactorState.Validate
        else ReactorState.KeepUp, [], CrankFinish.scheduleCrank⟩

end Casper

namespace Casper

open BlockGossipAcceptor

/-- `can_execute` either leaves the acceptor unchanged or merely sets the
latch. -/
theorem can_execute_state (a : BlockGossipAcceptor)
    (w : Option EraValidatorWeights) :
    (can_execute a w).2 = a ∨
      (can_execute a w).2 = { a with can_execute_latch := ⟨true⟩ } := by
  unfold can_execute
  split
  · exact Or.inl rfl
  · split
    · exact Or.inl rfl
    · cases w with
      | none => exact Or.inl rfl
      | some weights =>
          simp only
          split
          · exact Or.inr rfl
          · exact Or.inl rfl

/-- If the latch is already set, `can_execute` returns true and changes
nothing. -/
theorem can_execute_of_latch (a : BlockGossipAcceptor)
    (w : Option EraValidatorWeights) (h : a.can_execute_latch.value = true) :
    can_execute a w = (true, a) := by
  unfold can_execute
  simp [h]

/-- If `can_execute` returns true, the latch is set in the resulting
acceptor. -/
theorem latch_of_can_execute_true (a : BlockGossipAcceptor)
    (w : Option EraValidatorWeights) (h : (can_execute a w).1 = true) :
    (can_execute a w).2.can_execute_latch.value = true := by
  unfold can_execute at h ⊢
  by_cases hl : a.can_execute_latch.value = true
  · simp [hl]
  · by_cases hb : a.block_added.isNone
    · simp [hl, hb] at h
    · cases w with
      | none => simp [hl, hb] at h
      | some weights =>
          by_cases hs : weights.has_sufficient_weight
              (a.signatures.map Prod.fst) = SignatureWeight.Sufficient
          · simp [hl, hb, hs]
          · simp [hl, hb, hs] at h

/-- A set latch is preserved by `can_execute`. -/
theorem can_execute_latch_mono (a : BlockGossipAcceptor)
    (w : Option EraValidatorWeights) (h : a.can_execute_latch.value = true) :
    (can_execute a w).2.can_execute_latch.value = true := by
  rw [can_execute_of_latch a w h]
  exact h

/-- A set latch is preserved by `register_signature`. -/
theorem register_signature_latch_mono (a : BlockGossipAcceptor)
    (fs : FinalitySignature) (w : Option EraValidatorWeights)
    (h : a.can_execute_latch.value = true) :
    (register_signature a fs w).2.can_execute_latch.value = true := by
  unfold register_signature
  cases hba : a.block_added with
  | some ba =>
      by_cases he : ba.block.era_id ≠ fs.era_id
      · simp only [hba, if_pos he]
        exact h
      · simp only [hba, if_neg he]
        exact can_execute_latch_mono _ w (can_execute_latch_mono a w h)
  | none =>
      simp only [hba]
      exact can_execute_latch_mono _ w (can_execute_latch_mono a w h)

/-- A set latch is preserved by `register_block`. -/
theorem register_block_latch_mono (a : BlockGossipAcceptor)
    (ba : BlockAdded) (w : Option EraValidatorWeights)
    (h : a.can_execute_latch.value = true) :
    (register_block a ba w).2.can_execute_latch.value = true := by
  unfold register_block
  by_cases hs : a.block_added.isSome = true
  · rw [if_pos hs]
    exact h
  · rw [if_neg hs]
    by_cases hv : ba.validate = false
    · rw [if_pos hv]
      exact h
    · rw [if_neg hv]
      exact can_execute_latch_mono _ w (can_execute_latch_mono _ w h)

/-- A set latch is preserved by every operation. -/
theorem step_latch_mono (a : BlockGossipAcceptor) (op : Op)
    (h : a.can_execute_latch.value = true) :
    (step a op).can_execute_latch.value = true := by
  cases op with
  | regSig fs w => exact register_signature_latch_mono a fs w h
  | regBlock ba w => exact register_block_latch_mono a ba w h
  | canExec w => exact can_execute_latch_mono a w h

/-- A set latch is preserved by every sequence of operations. -/
theorem runOps_latch_mono (ops : List Op) :
    ∀ a : BlockGossipAcceptor, a.can_execute_latch.value = true →
      (runOps a ops).can_execute_latch.value = true := by
  induction ops with
  | nil => intro a h; exact h
  | cons op rest ih =>
      intro a h
      exact ih (step a op) (step_latch_mono a op h)
/-- Characterization of `isOkTrue`. -/
theorem isOkTrue_iff (r : Option (Except Error Bool)) :
    isOkTrue r = true ↔ r = some (Except.ok true) := by
  cases r with
  | none => simp [isOkTrue]
  | some e =>
      cases e with
      | error _ => simp [isOkTrue]
      | ok b => cases b <;> simp [isOkTrue]

/-- Once the latch is set, no operation returns `Ok(true)`. -/
theorem opRun_no_okTrue_of_latch (a : BlockGossipAcceptor) (op : Op)
    (h : a.can_execute_latch.value = true) :
    isOkTrue (opRun a op).1 = false := by
  cases op with
  | canExec w => rfl
  | regSig fs w =>
      have hc : can_execute a w = (true, a) := can_execute_of_latch a w h
      simp only [opRun]
      unfold register_signature
      cases hba : a.block_added with
      | some ba =>
          by_cases he : ba.block.era_id ≠ fs.era_id
          · simp [hba, he, isOkTrue]
          · simp [hba, he, hc, isOkTrue]
      | none => simp [hba, hc, isOkTrue]
  | regBlock ba w =>
      simp only [opRun]
      unfold register_block
      by_cases hs : a.block_added.isSome = true
      · simp [hs, isOkTrue]
      · by_cases hv : ba.validate = false
        · simp [hs, hv, isOkTrue]
        · rw [if_neg hs, if_neg hv]
          have hc := can_execute_of_latch
            (BlockGossipAcceptor.mk a.block_hash a.era_id a.block_added
              (a.signatures.filter (fun p => p.2.era_id = ba.block.era_id))
              a.can_execute_latch) w h
          simp [hc, isOkTrue]

/-- An operation returning `Ok(true)` leaves the latch set. -/
theorem latch_of_opRun_okTrue (a : BlockGossipAcceptor) (op : Op)
    (h : (opRun a op).1 = some (Except.ok true)) :
    (step a op).can_execute_latch.value = true := by
  cases op with
  | canExec w => simp [opRun] at h
  | regSig fs w =>
      simp only [step, opRun] at h ⊢
      unfold register_signature at h ⊢
      cases hba : a.block_added with
      | some ba =>
          by_cases he : ba.block.era_id ≠ fs.era_id
          · simp [hba, he] at h
          · simp only [hba, if_neg he] at h ⊢
            simp only [Option.some.injEq, Except.ok.injEq,
              Bool.and_eq_true] at h
            exact latch_of_can_execute_true _ w h.1
      | none =>
          simp only [hba] at h ⊢
          simp only [Option.some.injEq, Except.ok.injEq,
            Bool.and_eq_true] at h
          exact latch_of_can_execute_true _ w h.1
  | regBlock ba w =>
      simp only [step, opRun] at h ⊢
      unfold register_block at h ⊢
      by_cases hs : a.block_added.isSome = true
      · simp [hs] at h
      · rw [if_neg hs] at h ⊢
        by_cases hv : ba.validate = false
        · simp [hv] at h
        · rw [if_neg hv] at h ⊢
          simp only [Option.some.injEq, Except.ok.injEq,
            Bool.and_eq_true] at h
          exact latch_of_can_execute_true _ w h.1

/-- Once the latch is set, no later call ever returns `Ok(true)`. -/
theorem okTrueCount_zero_of_latch (ops : List Op) :
    ∀ a : BlockGossipAcceptor, a.can_execute_latch.value = true →
      okTrueCount (results a ops) = 0 := by
  induction ops with
  | nil => intro a _; rfl
  | cons op rest ih =>
      intro a h
      have h1 := opRun_no_okTrue_of_latch a op h
      have h2 := ih (step a op) (step_latch_mono a op h)
      simp [results, okTrueCount, List.countP_cons, h1] at h2 ⊢
      exact h2
/-- C1: For every block acceptor and every finite sequence of interleaved
`register_signature` and `register_block` calls on it (with arbitrary
signature, block, and optional-weights arguments, and arbitrary interleaved
`can_execute` queries), at most one call in the sequence returns `Ok(true)`. -/
theorem edge_transition_exclusivity (a : BlockGossipAcceptor) (ops : List Op) :
    okTrueCount (results a ops) ≤ 1 := by
  induction ops generalizing a with
  | nil => exact Nat.zero_le 1
  | cons op rest ih =>
      by_cases h : isOkTrue (opRun a op).1 = true
      · have hl : (step a op).can_execute_latch.value = true :=
          latch_of_opRun_okTrue a op ((isOkTrue_iff _).mp h)
        have h0 := okTrueCount_zero_of_latch rest (step a op) hl
        have he : okTrueCount (results a (op :: rest)) =
            okTrueCount (results (step a op) rest) + 1 := by
          simp [results, okTrueCount, List.countP_cons, h]
        rw [he, h0]
      · have h1 := ih (step a op)
        have he : okTrueCount (results a (op :: rest)) =
            okTrueCount (results (step a op) rest) := by
          simp [results, okTrueCount, List.countP_cons, h]
        rw [he]
        exact h1

/-- C2: once `can_execute(w)` has returned true on an acceptor, every later
`can_execute(w')` call returns true for every weights argument `w'`
(including `None`), across any interleaved sequence of operations. -/
theorem can_execute_monotonic (a : BlockGossipAcceptor)
    (w w' : Option EraValidatorWeights) (ops : List Op)
    (h : (can_execute a w).1 = true) :
    (can_execute (runOps (can_execute a w).2 ops) w').1 = true := by
  have h1 := latch_of_can_execute_true a w h
  have h2 := runOps_latch_mono ops _ h1
  rw [can_execute_of_latch _ w' h2]
/-- `can_execute` never changes the `block_added` field. -/
theorem can_execute_block_added (a : BlockGossipAcceptor)
    (w : Option EraValidatorWeights) :
    (can_execute a w).2.block_added = a.block_added := by
  rcases can_execute_state a w with h | h <;> rw [h]

/-- `can_execute` never changes the `era_id` field. -/
theorem can_execute_era_id (a : BlockGossipAcceptor)
    (w : Option EraValidatorWeights) :
    (can_execute a w).2.era_id = a.era_id := by
  rcases can_execute_state a w with h | h <;> rw [h]

/-- `can_execute` never changes the `block_hash` field. -/
theorem can_execute_block_hash (a : BlockGossipAcceptor)
    (w : Option EraValidatorWeights) :
    (can_execute a w).2.block_hash = a.block_hash := by
  rcases can_execute_state a w with h | h <;> rw [h]

/-- `can_execute` never changes the `signatures` map. -/
theorem can_execute_signatures (a : BlockGossipAcceptor)
    (w : Option EraValidatorWeights) :
    (can_execute a w).2.signatures = a.signatures := by
  rcases can_execute_state a w with h | h <;> rw [h]

/-- `register_signature` on an acceptor whose block has a different era
returns `FinalitySignatureWithWrongEra` with the block's era and leaves the
acceptor unchanged. -/
theorem register_signature_wrong_era (a : BlockGossipAcceptor)
    (ba : BlockAdded) (fs : FinalitySignature)
    (w : Option EraValidatorWeights) (hba : a.block_added = some ba)
    (hne : ba.block.era_id ≠ fs.era_id) :
    register_signature a fs w =
      (Except.error (Error.FinalitySignatureWithWrongEra fs ba.block.era_id),
        a) := by
  unfold register_signature
  simp only [hba, if_pos hne]

/-- When the era check passes, `register_signature` leaves every field but
the signatures map and the latch unchanged, and inserts the signature. -/
theorem register_signature_ok_fields (a : BlockGossipAcceptor)
    (fs : FinalitySignature) (w : Option EraValidatorWeights)
    (hok : ∀ ba, a.block_added = some ba → ba.block.era_id = fs.era_id) :
    (register_signature a fs w).2.block_added = a.block_added ∧
    (register_signature a fs w).2.era_id = a.era_id ∧
    (register_signature a fs w).2.block_hash = a.block_hash ∧
    (register_signature a fs w).2.signatures =
      insertSig a.signatures fs.public_key fs := by
  unfold register_signature
  cases hba : a.block_added with
  | some ba =>
      have he : ¬ ba.block.era_id ≠ fs.era_id := fun hne => hne (hok ba hba)
      simp only [hba, if_neg he]
      refine ⟨?_, ?_, ?_, ?_⟩ <;>
        simp [can_execute_block_added, can_execute_era_id,
          can_execute_block_hash, can_execute_signatures, hba]
  | none =>
      simp only [hba]
      refine ⟨?_, ?_, ?_, ?_⟩ <;>
        simp [can_execute_block_added, can_execute_era_id,
          can_execute_block_hash, can_execute_signatures, hba]

/-- `register_block` on an acceptor that already has a block is a no-op
returning `Ok(false)`. -/
theorem register_block_duplicate (a : BlockGossipAcceptor) (ba : BlockAdded)
    (w : Option EraValidatorWeights) (h : a.block_added.isSome = true) :
    register_block a ba w = (Except.ok false, a) := by
  unfold register_block
  rw [if_pos h]

/-- When the block is new and valid, `register_block` stores it, retains only
signatures of the block's era, and leaves `era_id` and `block_hash`
unchanged. -/
theorem register_block_ok_fields (a : BlockGossipAcceptor) (ba : BlockAdded)
    (w : Option EraValidatorWeights) (hn : a.block_added = none)
    (hv : ba.validate = true) :
    (register_block a ba w).2.block_added = some ba ∧
    (register_block a ba w).2.era_id = a.era_id ∧
    (register_block a ba w).2.block_hash = a.block_hash ∧
    (register_block a ba w).2.signatures =
      a.signatures.filter (fun p => p.2.era_id = ba.block.era_id) := by
  unfold register_block
  have hs : ¬ a.block_added.isSome = true := by simp [hn]
  have hv2 : ¬ ba.validate = false := by simp [hv]
  rw [if_neg hs, if_neg hv2]
  refine ⟨?_, ?_, ?_, ?_⟩ <;>
    simp [can_execute_block_added, can_execute_era_id,
      can_execute_block_hash, can_execute_signatures]
/-- Membership after insertion: an entry is the inserted one or came from the
old map. -/
theorem mem_insertSig (m : List (Nat × FinalitySignature)) (k : Nat)
    (fs : FinalitySignature) (p : Nat × FinalitySignature)
    (h : p ∈ insertSig m k fs) : p = (k, fs) ∨ p ∈ m := by
  simp only [insertSig, List.mem_cons] at h
  rcases h with h | h
  · exact Or.inl h
  · exact Or.inr (List.mem_filter.mp h).1

/-- Every operation preserves the from-block-added invariant. -/
theorem step_preserves_fromBlockInv (a : BlockGossipAcceptor) (op : Op)
    (h : FromBlockInv a) : FromBlockInv (step a op) := by
  obtain ⟨ba, hba, hera, hhash, hsigs⟩ := h
  cases op with
  | canExec w =>
      have e : step a (Op.canExec w) = (can_execute a w).2 := rfl
      refine ⟨ba, ?_, ?_, ?_, ?_⟩
      · rw [e, can_execute_block_added]; exact hba
      · rw [e, can_execute_era_id]; exact hera
      · rw [e, can_execute_block_hash]; exact hhash
      · rw [e, can_execute_signatures, can_execute_era_id]; exact hsigs
  | regSig fs w =>
      have e : step a (Op.regSig fs w) = (register_signature a fs w).2 := rfl
      by_cases heq : ba.block.era_id = fs.era_id
      · have hok : ∀ ba', a.block_added = some ba' →
            ba'.block.era_id = fs.era_id := by
          intro ba' hba'
          rw [hba] at hba'
          cases hba'
          exact heq
        obtain ⟨h1, h2, h3, h4⟩ := register_signature_ok_fields a fs w hok
        refine ⟨ba, ?_, ?_, ?_, ?_⟩
        · rw [e, h1]; exact hba
        · rw [e, h2]; exact hera
        · rw [e, h3]; exact hhash
        · rw [e, h4, h2]
          intro p hp
          rcases mem_insertSig _ _ _ p hp with hp1 | hp1
          · rw [hp1]
            show fs.era_id = a.era_id
            rw [hera]
            exact heq.symm
          · exact hsigs p hp1
      · have hrw := register_signature_wrong_era a ba fs w hba heq
        have e2 : step a (Op.regSig fs w) = a := by
          rw [e, hrw]
        rw [e2]
        exact ⟨ba, hba, hera, hhash, hsigs⟩
  | regBlock ba2 w =>
      have e : step a (Op.regBlock ba2 w) = (register_block a ba2 w).2 := rfl
      have hsome : a.block_added.isSome = true := by rw [hba]; rfl
      have e2 : step a (Op.regBlock ba2 w) = a := by
        rw [e, register_block_duplicate a ba2 w hsome]
      rw [e2]
      exact ⟨ba, hba, hera, hhash, hsigs⟩

/-- The from-block-added invariant holds after any sequence of operations. -/
theorem runOps_preserves_fromBlockInv (ops : List Op) :
    ∀ a : BlockGossipAcceptor, FromBlockInv a → FromBlockInv (runOps a ops) := by
  induction ops with
  | nil => intro a h; exact h
  | cons op rest ih =>
      intro a h
      exact ih (step a op) (step_preserves_fromBlockInv a op h)

/-- `new_from_block_added` establishes the invariant. -/
theorem fromBlockInv_new (ba : BlockAdded) (a : BlockGossipAcceptor)
    (h : new_from_block_added ba = Except.ok a) : FromBlockInv a := by
  unfold new_from_block_added at h
  by_cases hv : ba.validate = false
  · rw [if_pos hv] at h
    exact absurd h (by intro hc; cases hc)
  · rw [if_neg hv] at h
    injection h with h2
    subst h2
    refine ⟨ba, rfl, rfl, rfl, ?_⟩
    intro p hp
    simp at hp
/-- C2 witness: a concrete acceptor on which `can_execute` has returned true
keeps returning true after further operations, with any weights. -/
theorem can_execute_monotonic_witness :
    ((⟨1, 5, some ⟨⟨1, 5, 0, 6⟩, true⟩, [], ⟨true⟩⟩ :
        BlockGossipAcceptor).can_execute none).1 = true ∧
    (can_execute (runOps ((⟨1, 5, some ⟨⟨1, 5, 0, 6⟩, true⟩, [], ⟨true⟩⟩ :
          BlockGossipAcceptor).can_execute none).2
        [Op.canExec none, Op.regSig ⟨1, 5, 2, true⟩ none])
      (some ⟨5, [(2, 10)]⟩)).1 = true :=
  ⟨by decide,
    can_execute_monotonic _ none (some ⟨5, [(2, 10)]⟩)
      [Op.canExec none, Op.regSig ⟨1, 5, 2, true⟩ none] (by decide)⟩

/-- C3 is false as stated: an acceptor constructed from a finality signature
of era 5 accepts and stores a signature of era 7 while `block_added` is
`None`, because `register_signature` checks eras only against a present
block. -/
theorem signature_era_counterexample :
    new_from_finality_signature ⟨1, 5, 1, true⟩ none =
      Except.ok ⟨1, 5, none, [(1, ⟨1, 5, 1, true⟩)], ⟨false⟩⟩ ∧
    ((⟨1, 5, none, [(1, ⟨1, 5, 1, true⟩)], ⟨false⟩⟩ :
        BlockGossipAcceptor).register_signature ⟨1, 7, 2, true⟩ none).1 =
      Except.ok false ∧
    ∃ p ∈ ((⟨1, 5, none, [(1, ⟨1, 5, 1, true⟩)], ⟨false⟩⟩ :
        BlockGossipAcceptor).register_signature ⟨1, 7, 2, true⟩ none).2.signatures,
      (p : Nat × FinalitySignature).2.era_id ≠
        ((⟨1, 5, none, [(1, ⟨1, 5, 1, true⟩)], ⟨false⟩⟩ :
          BlockGossipAcceptor).register_signature
            ⟨1, 7, 2, true⟩ none).2.era_id :=
  ⟨rfl, rfl, by decide⟩

/-- C3 (amended): for an acceptor constructed via `new_from_block_added`,
after any sequence of operations every stored signature's era equals the
acceptor's `era_id` (which is the block's era); for acceptors constructed
from a finality signature this can fail while `block_added` is `None`. -/
theorem signature_era_invariant_amended (ba0 : BlockAdded)
    (a0 : BlockGossipAcceptor) (ops : List Op)
    (h : new_from_block_added ba0 = Except.ok a0) :
    ∀ p ∈ (runOps a0 ops).signatures,
      (p : Nat × FinalitySignature).2.era_id = (runOps a0 ops).era_id := by
  obtain ⟨ba, _, _, _, hs⟩ :=
    runOps_preserves_fromBlockInv ops a0 (fromBlockInv_new ba0 a0 h)
  exact hs

/-- C3 amended witness at a concrete construction and operation sequence. -/
theorem signature_era_invariant_amended_witness :
    (new_from_block_added ⟨⟨1, 5, 0, 6⟩, true⟩ =
      Except.ok ⟨1, 5, some ⟨⟨1, 5, 0, 6⟩, true⟩, [], ⟨false⟩⟩) ∧
    ∀ p ∈ (runOps (⟨1, 5, some ⟨⟨1, 5, 0, 6⟩, true⟩, [], ⟨false⟩⟩ :
        BlockGossipAcceptor) [Op.regSig ⟨1, 5, 2, true⟩ none]).signatures,
      (p : Nat × FinalitySignature).2.era_id =
        (runOps (⟨1, 5, some ⟨⟨1, 5, 0, 6⟩, true⟩, [], ⟨false⟩⟩ :
          BlockGossipAcceptor) [Op.regSig ⟨1, 5, 2, true⟩ none]).era_id :=
  ⟨rfl, signature_era_invariant_amended ⟨⟨1, 5, 0, 6⟩, true⟩ _
    [Op.regSig ⟨1, 5, 2, true⟩ none] rfl⟩

/-- C4 is false as stated: `register_block` never compares the incoming
block's hash with the acceptor's `block_hash`, so an acceptor constructed
from a signature for hash 1 accepts a block whose hash is 2 and ends with
`block_hash ≠ block_added.block.hash()`. -/
theorem block_hash_counterexample :
    new_from_finality_signature ⟨1, 5, 1, true⟩ none =
      Except.ok ⟨1, 5, none, [(1, ⟨1, 5, 1, true⟩)], ⟨false⟩⟩ ∧
    ((⟨1, 5, none, [(1, ⟨1, 5, 1, true⟩)], ⟨false⟩⟩ :
        BlockGossipAcceptor).register_block ⟨⟨2, 5, 0, 6⟩, true⟩ none).1 =
      Except.ok false ∧
    ((⟨1, 5, none, [(1, ⟨1, 5, 1, true⟩)], ⟨false⟩⟩ :
        BlockGossipAcceptor).register_block
          ⟨⟨2, 5, 0, 6⟩, true⟩ none).2.block_added =
      some ⟨⟨2, 5, 0, 6⟩, true⟩ ∧
    ((⟨1, 5, none, [(1, ⟨1, 5, 1, true⟩)], ⟨false⟩⟩ :
        BlockGossipAcceptor).register_block
          ⟨⟨2, 5, 0, 6⟩, true⟩ none).2.block_hash ≠
      (⟨⟨2, 5, 0, 6⟩, true⟩ : BlockAdded).block.hash :=
  ⟨rfl, rfl, rfl, by decide⟩

/-- C4 (amended): for an acceptor constructed via `new_from_block_added`, in
every reachable state `block_added` is the original block and `block_hash`
equals its hash; for `new_from_finality_signature` acceptors the equality can
fail because `register_block` accepts a block of any hash. -/
theorem block_hash_invariant_amended (ba0 : BlockAdded)
    (a0 : BlockGossipAcceptor) (ops : List Op)
    (h : new_from_block_added ba0 = Except.ok a0) :
    ∃ ba, (runOps a0 ops).block_added = some ba ∧
      (runOps a0 ops).block_hash = ba.block.hash := by
  obtain ⟨ba, h1, _, h3, _⟩ :=
    runOps_preserves_fromBlockInv ops a0 (fromBlockInv_new ba0 a0 h)
  exact ⟨ba, h1, h3⟩

/-- C4 amended witness at a concrete construction and operation sequence. -/
theorem block_hash_invariant_amended_witness :
    (new_from_block_added ⟨⟨1, 5, 0, 6⟩, true⟩ =
      Except.ok ⟨1, 5, some ⟨⟨1, 5, 0, 6⟩, true⟩, [], ⟨false⟩⟩) ∧
    ∃ ba, (runOps (⟨1, 5, some ⟨⟨1, 5, 0, 6⟩, true⟩, [], ⟨false⟩⟩ :
        BlockGossipAcceptor)
          [Op.regBlock ⟨⟨2, 5, 0, 6⟩, true⟩ none]).block_added = some ba ∧
      (runOps (⟨1, 5, some ⟨⟨1, 5, 0, 6⟩, true⟩, [], ⟨false⟩⟩ :
        BlockGossipAcceptor)
          [Op.regBlock ⟨⟨2, 5, 0, 6⟩, true⟩ none]).block_hash = ba.block.hash :=
  ⟨rfl, block_hash_invariant_amended ⟨⟨1, 5, 0, 6⟩, true⟩ _
    [Op.regBlock ⟨⟨2, 5, 0, 6⟩, true⟩ none] rfl⟩

/-- C5: the code does not perform the verification the spec requires.
`register_signature` on a signature failing `is_verified()` returns
`Ok(false)` and stores the unverified signature (only a `TODO: verify sig`
comment marks the missing check). -/
theorem unverified_signature_stored :
    (⟨1, 5, 2, false⟩ : FinalitySignature).is_verified = false ∧
    ((⟨1, 5, some ⟨⟨1, 5, 0, 6⟩, true⟩, [], ⟨false⟩⟩ :
        BlockGossipAcceptor).register_signature ⟨1, 5, 2, false⟩ none).1 =
      Except.ok false ∧
    ((⟨1, 5, some ⟨⟨1, 5, 0, 6⟩, true⟩, [], ⟨false⟩⟩ :
        BlockGossipAcceptor).register_signature
          ⟨1, 5, 2, false⟩ none).2.signatures = [(2, ⟨1, 5, 2, false⟩)] :=
  ⟨rfl, rfl, rfl⟩

/-- C6: when a block is present and a signature's era differs from the
block's era, `register_signature` returns
`FinalitySignatureWithWrongEra` carrying the block's era as `correct_era`,
and the acceptor (signatures map included) is unchanged. -/
theorem wrong_era_signature_rejected (a : BlockGossipAcceptor)
    (ba : BlockAdded) (fs : FinalitySignature)
    (w : Option EraValidatorWeights) (hba : a.block_added = some ba)
    (hne : ba.block.era_id ≠ fs.era_id) :
    register_signature a fs w =
      (Except.error (Error.FinalitySignatureWithWrongEra fs ba.block.era_id),
        a) :=
  register_signature_wrong_era a ba fs w hba hne

/-- C6 witness: concrete acceptor with an era-7 block rejecting an era-8
signature. -/
theorem wrong_era_signature_rejected_witness :
    ((⟨1, 7, some ⟨⟨1, 7, 0, 8⟩, true⟩, [], ⟨false⟩⟩ :
        BlockGossipAcceptor).block_added = some ⟨⟨1, 7, 0, 8⟩, true⟩) ∧
    ((⟨⟨1, 7, 0, 8⟩, true⟩ : BlockAdded).block.era_id ≠
      (⟨1, 8, 2, true⟩ : FinalitySignature).era_id) ∧
    (⟨1, 7, some ⟨⟨1, 7, 0, 8⟩, true⟩, [], ⟨false⟩⟩ :
        BlockGossipAcceptor).register_signature ⟨1, 8, 2, true⟩ none =
      (Except.error
        (Error.FinalitySignatureWithWrongEra ⟨1, 8, 2, true⟩ 7),
        ⟨1, 7, some ⟨⟨1, 7, 0, 8⟩, true⟩, [], ⟨false⟩⟩) :=
  ⟨by decide, by decide,
    wrong_era_signature_rejected _ ⟨⟨1, 7, 0, 8⟩, true⟩ ⟨1, 8, 2, true⟩ none
      (by decide) (by decide)⟩

/-- The starting-point determination can only early-return `CommitGenesis`,
the post-genesis shutdown, or the fatal-storage shutdown. -/
theorem starting_with_error_cases (st : CatchUpState)
    (i : CatchUpInstruction) (h : starting_with st = Except.error i) :
    i = CatchUpInstruction.CommitGenesis ∨
    i = CatchUpInstruction.Shutdown
      "post-genesis; cannot proceed without trusted hash provided" ∨
    i = CatchUpInstruction.Shutdown
      "fatal block store error when attempting to read block under trusted hash" := by
  unfold starting_with at h
  split at h
  · split at h
    · simp at h
    · split at h
      · split at h
        · simp at h
          exact Or.inl h.symm
        · simp at h
          exact Or.inr (Or.inl h.symm)
      · simp at h
        exact Or.inr (Or.inl h.symm)
  · split at h
    · split at h
      · split at h
        · simp at h
        · simp at h
      · simp at h
    · simp at h
    · simp at h
      exact Or.inr (Or.inr h.symm)

/-- The dispatch passes the threaded `attempts` value through unchanged. -/
theorem catch_up_dispatch_attempts (st : CatchUpState) (A : Nat) :
    (catch_up_dispatch st A).attempts = A := by
  unfold catch_up_dispatch
  split
  · rfl
  · split
    · rfl
    · rfl
    · rfl
    · split
      · split
        · rfl
        · rfl
      · rfl

/-- The dispatch never emits the idle-tolerance shutdown message. -/
theorem catch_up_dispatch_ne_idle (st : CatchUpState) (A : Nat) :
    (catch_up_dispatch st A).instruction ≠
      CatchUpInstruction.Shutdown "catch up process exceeds idle tolerances" := by
  unfold catch_up_dispatch
  split
  · next i heq =>
      rcases starting_with_error_cases st i heq with h | h | h <;> subst h
      · simp
      · show CatchUpInstruction.Shutdown
          "post-genesis; cannot proceed without trusted hash provided" ≠ _
        decide
      · show CatchUpInstruction.Shutdown
          "fatal block store error when attempting to read block under trusted hash" ≠ _
        decide
  · split
    · simp
    · simp
    · simp
    · split
      · split
        · simp
        · simp
      · show CatchUpInstruction.Shutdown
          "can't be caught up with no block in the block store" ≠ _
        decide

/-- When the synchronizer reported no progress timestamp, or progress is
stale without exhausting the attempt budget, the evaluator reaches the
dispatch (with the current or incremented attempts counter). -/
theorem catch_up_guard_passes (st : CatchUpState)
    (h : st.last_progress = none ∨ ∃ ts, st.last_progress = some ts ∧
      st.idle_tolerances < st.now - ts ∧ st.attempts + 1 ≤ st.max_attempts) :
    catch_up_instructions st = catch_up_dispatch st st.attempts ∨
    catch_up_instructions st = catch_up_dispatch st (st.attempts + 1) := by
  rcases h with h | ⟨ts, hlp, hgt, hle⟩
  · left
    unfold catch_up_instructions
    rw [h]
  · right
    unfold catch_up_instructions
    simp only [hlp]
    rw [if_neg (not_le.mpr hgt), if_neg (by omega)]

/-- On a `BlockSync` answer, the dispatch registers the hash with the flag as
carried in the instruction and returns `CheckSoon`. -/
theorem catch_up_dispatch_block_sync (st : CatchUpState) (A : Nat)
    (sw : StartingWith) (bh : Nat) (f : Bool)
    (hsw : starting_with st = Except.ok sw)
    (hsync : st.sync_instruction sw = SyncInstruction.BlockSync bh f) :
    catch_up_dispatch st A =
      ⟨CatchUpInstruction.CheckSoon "block_synchronizer is initialized", A,
        [(bh, f)]⟩ := by
  unfold catch_up_dispatch
  simp only [hsw, hsync]

/-- On a `CaughtUp` answer with no local tip, the dispatch shuts down. -/
theorem catch_up_dispatch_caught_up_none (st : CatchUpState) (A : Nat)
    (sw : StartingWith) (hsw : starting_with st = Except.ok sw)
    (hsync : st.sync_instruction sw = SyncInstruction.CaughtUp)
    (hnb : st.highest_block = none) :
    catch_up_dispatch st A =
      ⟨CatchUpInstruction.Shutdown
        "can't be caught up with no block in the block store", A, []⟩ := by
  unfold catch_up_dispatch
  simp only [hsw, hsync, hnb]

/-- Progress within tolerance resets `attempts` and waits `2·WAIT_SEC`. -/
theorem catch_up_fresh (st : CatchUpState) (ts : Nat)
    (hlp : st.last_progress = some ts)
    (hle : st.now - ts ≤ st.idle_tolerances) :
    catch_up_instructions st =
      ⟨CatchUpInstruction.CheckLater "block_synchronizer is making progress"
        (WAIT_SEC * 2), 0, []⟩ := by
  unfold catch_up_instructions
  simp only [hlp]
  rw [if_pos hle]

/-- A stale progress report increments `attempts`, and the idle shutdown is
emitted exactly when the incremented counter exceeds `max_attempts`. -/
theorem catch_up_stale (st : CatchUpState) (ts : Nat)
    (hlp : st.last_progress = some ts)
    (hgt : st.idle_tolerances < st.now - ts) :
    (catch_up_instructions st).attempts = st.attempts + 1 ∧
    ((catch_up_instructions st).instruction =
        CatchUpInstruction.Shutdown "catch up process exceeds idle tolerances" ↔
      st.max_attempts < st.attempts + 1) := by
  unfold catch_up_instructions
  simp only [hlp]
  rw [if_neg (not_le.mpr hgt)]
  by_cases hc : st.attempts + 1 > st.max_attempts
  · rw [if_pos hc]
    exact ⟨rfl, iff_of_true rfl hc⟩
  · rw [if_neg hc]
    refine ⟨catch_up_dispatch_attempts st _, ?_⟩
    constructor
    · intro hbad
      exact absurd hbad (catch_up_dispatch_ne_idle st _)
    · intro hbad
      omega

/-- With a frozen stale progress report, the i-th of n consecutive cranks is
the single-crank evaluation at the accumulated attempts counter. -/
theorem runCranks_stale_get (ts : Nat) :
    ∀ (n : Nat) (st : CatchUpState), st.last_progress = some ts →
      st.idle_tolerances < st.now - ts →
      ∀ i, i < n →
        (runCranks st n)[i]? =
          some ((catch_up_instructions
            { st with attempts := st.attempts + i }).instruction) := by
  intro n
  induction n with
  | zero =>
      intro st _ _ i hi
      exact absurd hi (Nat.not_lt_zero i)
  | succ n ih =>
      intro st hlp hgt i hi
      obtain ⟨lp, now, tol, att, maxa, th, hb, rb, ap, si⟩ := st
      simp only at hlp hgt
      cases i with
      | zero => simp [runCranks]
      | succ j =>
          have hatt : (catch_up_instructions
              ⟨lp, now, tol, att, maxa, th, hb, rb, ap, si⟩).attempts =
              att + 1 :=
            (catch_up_stale ⟨lp, now, tol, att, maxa, th, hb, rb, ap, si⟩
              ts hlp hgt).1
          simp only [runCranks, List.getElem?_cons_succ]
          rw [ih ⟨lp, now, tol, (catch_up_instructions
              ⟨lp, now, tol, att, maxa, th, hb, rb, ap, si⟩).attempts,
              maxa, th, hb, rb, ap, si⟩ hlp hgt j (by omega), hatt]
          have harith : att + 1 + j = att + (j + 1) := by omega
          rw [harith]

/-- C7 is false as stated: with the accumulator answering
`BlockSync{hash 9, fetch_execution_state = false}` during catch-up, the
evaluator registers the hash with `false` (the flag as carried), not with
`true`. -/
theorem catch_up_block_sync_counterexample :
    ((⟨none, 0, 0, 0, 3, none, some ⟨1, 5, 10, 6⟩,
        fun _ => ReadBlockResult.missing, ActivationPoint.UpgradeEra 2,
        fun _ => SyncInstruction.BlockSync 9 false⟩ :
          CatchUpState).sync_instruction (StartingWith.Block ⟨1, 5, 10, 6⟩) =
      SyncInstruction.BlockSync 9 false) ∧
    (catch_up_instructions ⟨none, 0, 0, 0, 3, none, some ⟨1, 5, 10, 6⟩,
        fun _ => ReadBlockResult.missing, ActivationPoint.UpgradeEra 2,
        fun _ => SyncInstruction.BlockSync 9 false⟩).registrations =
      [(9, false)] ∧
    (catch_up_instructions ⟨none, 0, 0, 0, 3, none, some ⟨1, 5, 10, 6⟩,
        fun _ => ReadBlockResult.missing, ActivationPoint.UpgradeEra 2,
        fun _ => SyncInstruction.BlockSync 9 false⟩).registrations ≠
      [(9, true)] :=
  ⟨rfl, rfl, by decide⟩

/-- C7 (amended): during catch-up, whenever the idleness guard passes and the
accumulator's sync instruction is `BlockSync`, the evaluator registers the
hash with `fetch_execution_state` exactly as carried in the instruction and
returns `CheckSoon`. -/
theorem catch_up_block_sync_forwards_flag (st : CatchUpState)
    (sw : StartingWith) (bh : Nat) (f : Bool)
    (hguard : st.last_progress = none ∨ ∃ ts, st.last_progress = some ts ∧
      st.idle_tolerances < st.now - ts ∧ st.attempts + 1 ≤ st.max_attempts)
    (hsw : starting_with st = Except.ok sw)
    (hsync : st.sync_instruction sw = SyncInstruction.BlockSync bh f) :
    (catch_up_instructions st).instruction =
      CatchUpInstruction.CheckSoon "block_synchronizer is initialized" ∧
    (catch_up_instructions st).registrations = [(bh, f)] := by
  rcases catch_up_guard_passes st hguard with h | h <;>
    rw [h, catch_up_dispatch_block_sync st _ sw bh f hsw hsync] <;>
    exact ⟨rfl, rfl⟩

/-- C7 amended witness at a concrete catch-up state. -/
theorem catch_up_block_sync_forwards_flag_witness :
    (starting_with (⟨none, 0, 0, 0, 3, none, some ⟨1, 5, 10, 6⟩,
        fun _ => ReadBlockResult.missing, ActivationPoint.UpgradeEra 2,
        fun _ => SyncInstruction.BlockSync 9 true⟩ : CatchUpState) =
      Except.ok (StartingWith.Block ⟨1, 5, 10, 6⟩)) ∧
    (catch_up_instructions ⟨none, 0, 0, 0, 3, none, some ⟨1, 5, 10, 6⟩,
        fun _ => ReadBlockResult.missing, ActivationPoint.UpgradeEra 2,
        fun _ => SyncInstruction.BlockSync 9 true⟩).instruction =
      CatchUpInstruction.CheckSoon "block_synchronizer is initialized" ∧
    (catch_up_instructions ⟨none, 0, 0, 0, 3, none, some ⟨1, 5, 10, 6⟩,
        fun _ => ReadBlockResult.missing, ActivationPoint.UpgradeEra 2,
        fun _ => SyncInstruction.BlockSync 9 true⟩).registrations =
      [(9, true)] :=
  ⟨rfl,
    (catch_up_block_sync_forwards_flag
      ⟨none, 0, 0, 0, 3, none, some ⟨1, 5, 10, 6⟩,
        fun _ => ReadBlockResult.missing, ActivationPoint.UpgradeEra 2,
        fun _ => SyncInstruction.BlockSync 9 true⟩
      (StartingWith.Block ⟨1, 5, 10, 6⟩)
      9 true (Or.inl rfl) rfl rfl).1,
    (catch_up_block_sync_forwards_flag
      ⟨none, 0, 0, 0, 3, none, some ⟨1, 5, 10, 6⟩,
        fun _ => ReadBlockResult.missing, ActivationPoint.UpgradeEra 2,
        fun _ => SyncInstruction.BlockSync 9 true⟩
      (StartingWith.Block ⟨1, 5, 10, 6⟩)
      9 true (Or.inl rfl) rfl rfl).2⟩

/-- C8: progress within tolerance resets `attempts` and yields
`CheckLater(2·WAIT_SEC)`; stale progress increments `attempts` and yields the
idle shutdown exactly when the incremented counter exceeds `max_attempts`;
with a frozen stale report starting from `attempts = 0`, the idle shutdown
appears exactly on crank `max_attempts + 1`. -/
theorem catch_up_idleness_guard (st : CatchUpState) (ts : Nat)
    (hlp : st.last_progress = some ts) :
    (st.now - ts ≤ st.idle_tolerances →
      catch_up_instructions st =
        ⟨CatchUpInstruction.CheckLater "block_synchronizer is making progress"
          (WAIT_SEC * 2), 0, []⟩) ∧
    (st.idle_tolerances < st.now - ts →
      (catch_up_instructions st).attempts = st.attempts + 1 ∧
      ((catch_up_instructions st).instruction =
          CatchUpInstruction.Shutdown
            "catch up process exceeds idle tolerances" ↔
        st.max_attempts < st.attempts + 1)) ∧
    (st.idle_tolerances < st.now - ts → st.attempts = 0 →
      (∀ i, i < st.max_attempts →
        (runCranks st (st.max_attempts + 1))[i]? ≠
          some (CatchUpInstruction.Shutdown
            "catch up process exceeds idle tolerances")) ∧
      (runCranks st (st.max_attempts + 1))[st.max_attempts]? =
        some (CatchUpInstruction.Shutdown
          "catch up process exceeds idle tolerances")) := by
  refine ⟨fun hle => catch_up_fresh st ts hlp hle,
    fun hgt => catch_up_stale st ts hlp hgt,
    fun hgt h0 => ⟨?_, ?_⟩⟩
  · intro i hi
    rw [runCranks_stale_get ts (st.max_attempts + 1) st hlp hgt i (by omega)]
    intro hbad
    have hinj : (catch_up_instructions
        { st with attempts := st.attempts + i }).instruction =
        CatchUpInstruction.Shutdown "catch up process exceeds idle tolerances" := by
      injection hbad
    have hiff := (catch_up_stale { st with attempts := st.attempts + i }
      ts hlp hgt).2.mp hinj
    have e : ({ st with attempts := st.attempts + i } :
        CatchUpState).attempts = st.attempts + i := rfl
    have e2 : ({ st with attempts := st.attempts + i } :
        CatchUpState).max_attempts = st.max_attempts := rfl
    rw [e, e2] at hiff
    omega
  · rw [runCranks_stale_get ts (st.max_attempts + 1) st hlp hgt
      st.max_attempts (by omega)]
    have e : ({ st with attempts := st.attempts + st.max_attempts } :
        CatchUpState).attempts = st.attempts + st.max_attempts := rfl
    have e2 : ({ st with attempts := st.attempts + st.max_attempts } :
        CatchUpState).max_attempts = st.max_attempts := rfl
    have h2 := (catch_up_stale { st with attempts :=
      st.attempts + st.max_attempts } ts hlp hgt).2.mpr
      (by rw [e, e2]; omega)
    rw [h2]

/-- C8 witness: a within-tolerance crank resets and waits; a frozen stale
report with `max_attempts = 2` shuts down on the third crank. -/
theorem catch_up_idleness_guard_witness :
    catch_up_instructions (⟨some 10, 12, 5, 7, 2, none, some ⟨1, 5, 10, 6⟩,
        fun _ => ReadBlockResult.missing, ActivationPoint.UpgradeEra 2,
        fun _ => SyncInstruction.CaughtUp⟩ : CatchUpState) =
      ⟨CatchUpInstruction.CheckLater "block_synchronizer is making progress"
        (WAIT_SEC * 2), 0, []⟩ ∧
    (runCranks (⟨some 0, 10, 3, 0, 2, none, some ⟨1, 5, 10, 6⟩,
        fun _ => ReadBlockResult.missing, ActivationPoint.UpgradeEra 2,
        fun _ => SyncInstruction.CaughtUp⟩ : CatchUpState) 3)[2]? =
      some (CatchUpInstruction.Shutdown
        "catch up process exceeds idle tolerances") :=
  ⟨(catch_up_idleness_guard _ 10 rfl).1 (by decide),
    ((catch_up_idleness_guard (⟨some 0, 10, 3, 0, 2, none, some ⟨1, 5, 10, 6⟩,
        fun _ => ReadBlockResult.missing, ActivationPoint.UpgradeEra 2,
        fun _ => SyncInstruction.CaughtUp⟩ : CatchUpState) 0 rfl).2.2
      (by decide) rfl).2⟩

/-- C9: the claim is refuted by the code as written: a `KeepUp` crank whose
sync instruction is `BlockSync` registers the hash with the flag as given and
then hits `todo!()`, i.e. panics instead of scheduling another crank. -/
theorem keep_up_block_sync_panics :
    crank_keep_up ⟨fun _ => SyncInstruction.BlockSync 7 true, false, 3⟩ =
      ⟨ReactorState.KeepUp, [(7, true, 3)],
        CrankFinish.panic "not yet implemented"⟩ :=
  rfl

/-- C10: during catch-up, a `CaughtUp` answer from the accumulator with no
highest block in storage shuts down with the dedicated message instead of
advancing to `KeepUp`. -/
theorem caught_up_without_tip_shuts_down (st : CatchUpState)
    (sw : StartingWith)
    (hguard : st.last_progress = none ∨ ∃ ts, st.last_progress = some ts ∧
      st.idle_tolerances < st.now - ts ∧ st.attempts + 1 ≤ st.max_attempts)
    (hsw : starting_with st = Except.ok sw)
    (hsync : st.sync_instruction sw = SyncInstruction.CaughtUp)
    (hnb : st.highest_block = none) :
    (catch_up_instructions st).instruction =
      CatchUpInstruction.Shutdown
        "can't be caught up with no block in the block store" := by
  rcases catch_up_guard_passes st hguard with h | h <;>
    rw [h, catch_up_dispatch_caught_up_none st _ sw hsw hsync hnb]

/-- C10 witness: trusted hash provided but unknown to storage, no local tip,
accumulator says caught up. -/
theorem caught_up_without_tip_shuts_down_witness :
    (starting_with (⟨none, 0, 0, 0, 3, some 4, none,
        fun _ => ReadBlockResult.missing, ActivationPoint.UpgradeEra 2,
        fun _ => SyncInstruction.CaughtUp⟩ : CatchUpState) =
      Except.ok (StartingWith.Hash 4)) ∧
    ((⟨none, 0, 0, 0, 3, some 4, none,
        fun _ => ReadBlockResult.missing, ActivationPoint.UpgradeEra 2,
        fun _ => SyncInstruction.CaughtUp⟩ :
          CatchUpState).highest_block = none) ∧
    (catch_up_instructions ⟨none, 0, 0, 0, 3, some 4, none,
        fun _ => ReadBlockResult.missing, ActivationPoint.UpgradeEra 2,
        fun _ => SyncInstruction.CaughtUp⟩).instruction =
      CatchUpInstruction.Shutdown
        "can't be caught up with no block in the block store" :=
  ⟨rfl, rfl,
    caught_up_without_tip_shuts_down _ (StartingWith.Hash 4) (Or.inl rfl)
      rfl rfl rfl⟩

end Casper
